import Mathlib

/-!
Verification development for the `scraping/basic_playground` pipeline
(`main.py` and `status_codes.py`).

The repository is a Python orchestration script around two external
collaborators (a browser-automation library and a remote LLM API).  This file
gives a shallow embedding of the pipeline's own logic:

* the status registry (`status_codes.py`),
* the record schema and `empty_record`,
* the phone-candidate extractor (four concrete regular expressions, embedded
  with Perl-style leftmost/greedy backtracking semantics specialised to those
  patterns),
* the Gemini retry loop (`extract_with_gemini`),
* the per-URL pipeline (`process_url`), and
* the run driver (`main`).

External effects are represented as explicit inputs: the crawler's behaviour
is an `Except`-valued function, the LLM's per-attempt behaviour is a function
from the attempt number to an outcome, wall-clock readings (`perf_counter`
differences) are abstract tick values passed in, and the UTC timestamp is an
ambient string parameter.  Character classes (`\d`, `\s`, `\w`) and
`str.strip` are modelled at ASCII granularity, which is the granularity the
patterns themselves are written at.  Python `float` durations carry no
arithmetic in any claim, so durations are abstract `Nat` ticks wrapped in
`Option` (`None` = stage did not run).
-/

namespace BasicPlayground

/-- Abstract monotonic-clock reading (a `time.perf_counter` difference).
No claim performs arithmetic on durations; only presence (`some`) versus
absence (`none`) matters. -/
abbrev Duration := Nat

/-- A Python exception caught at a `try`/`except` boundary, reduced to its
message. -/
abbrev PyErr := String

/-- ASCII model of the whitespace class used by Python `str.strip()` and the
regex class `\s`: space, tab, newline, carriage return, vertical tab, form
feed. -/
def isPySpace (c : Char) : Bool :=
  c == ' ' || c == '\t' || c == '\n' || c == '\r' || c.val == 11 || c.val == 12

/-- Python `str.strip()`: drop leading and trailing whitespace. -/
def pystrip (s : String) : String :=
  String.mk (((s.data.dropWhile isPySpace).reverse.dropWhile isPySpace).reverse)

/-- Python `a or b` on two optional environment strings: the first operand
wins when it is truthy (present and non-empty), otherwise the second operand
is returned unchanged. -/
def pyOr (a b : Option String) : Option String :=
  if a.getD "" ≠ "" then a else b

/-- Truthiness of an optional string (`None` and `""` are falsy). -/
def pyTruthy (a : Option String) : Bool :=
  a.getD "" ≠ ""

/-- Python `s.startswith(pre)`. -/
def pystartswith (s pre : String) : Bool :=
  List.isPrefixOf pre.data s.data

/-! ## Association-list model of Python `dict`

Python dictionaries preserve insertion order; assignment to an existing key
updates it in place, assignment to a fresh key appends it.  Keys here are
always strings. -/

/-- `d.get(k)` / `d[k]` lookup: first (and, for dicts, only) binding wins. -/
def assocGet {α : Type} (d : List (String × α)) (k : String) : Option α :=
  match d with
  | [] => none
  | p :: d => if p.1 = k then some p.2 else assocGet d k

/-- Is the key bound in the dict? -/
def assocHas {α : Type} (d : List (String × α)) (k : String) : Bool :=
  d.any (fun p => p.1 = k)

/-- `d[k] = v`: update in place when the key is bound, append otherwise. -/
def assocSet {α : Type} (d : List (String × α)) (k : String) (v : α) :
    List (String × α) :=
  if assocHas d k then
    d.map (fun p => if p.1 = k then (k, v) else p)
  else
    d ++ [(k, v)]

/-- JSON-serialisable values as they occur in the produced records: `null`,
strings, the integer counters of the metadata block, and nested objects (the
embedded `meta` object). -/
inductive JsonVal where
  | null : JsonVal
  | str (s : String) : JsonVal
  | nat (n : Nat) : JsonVal
  | obj (kvs : List (String × JsonVal)) : JsonVal

/-- A Python dict holding JSON-serialisable values. -/
abbrev Dict := List (String × JsonVal)

def dictGet (d : Dict) (k : String) : Option JsonVal := assocGet d k

def dictSet (d : Dict) (k : String) (v : JsonVal) : Dict := assocSet d k v

def dictKeys (d : Dict) : List String := d.map (fun p => p.1)

/-! ## `status_codes.py` -/

/-- One row of `STATUS_DEFINITIONS`: stable code, symbolic name, human
description. -/
structure StatusRow where
  cd_std : String
  cd_name : String
  cd_desc : String
  deriving DecidableEq, Repr

/-- The static catalog `STATUS_DEFINITIONS`, verbatim from
`status_codes.py`. -/
def STATUS_DEFINITIONS : List StatusRow := [
  ⟨"000000", "SUCCESS",
    "Request completed successfully with a high-confidence extraction result."⟩,
  ⟨"000050", "PARTIAL_SUCCESS",
    "Request completed but some fields are missing, low-confidence, or degraded."⟩,
  ⟨"000100", "CRAWL_FAILED",
    "Generic crawl failure (navigation, page load, or unknown browser error)."⟩,
  ⟨"000101", "NO_CONTENT_EXTRACTED",
    "Page loaded but no usable content could be extracted (empty or stripped body)."⟩,
  ⟨"000102", "CRAWL_TIMEOUT",
    "Crawl exceeded the configured timeout before the wait condition was satisfied."⟩,
  ⟨"000103", "CRAWL_INTERACTION_ERROR",
    "Crawl failed during page interaction (clicks/JS execution/scrolling)."⟩,
  ⟨"000104", "CRAWL_HTTP_ERROR",
    "Crawl received a non-2xx HTTP status code from the target URL."⟩,
  ⟨"000105", "CRAWL_BLOCKED_OR_CAPTCHA",
    "Crawl appears to be blocked by anti-bot measures, CAPTCHA, or similar protection."⟩,
  ⟨"000200", "GEMINI_CALL_FAILED",
    "Generic Gemini API failure (network, service, or SDK-level error)."⟩,
  ⟨"000201", "GEMINI_JSON_PARSE_FAILED",
    "Gemini returned a response that could not be parsed as the expected JSON schema."⟩,
  ⟨"000202", "GEMINI_RATE_LIMITED",
    "Gemini request was rejected due to rate limiting or quota exhaustion."⟩,
  ⟨"000203", "GEMINI_AUTH_FAILED",
    "Gemini request failed due to invalid or missing authentication credentials."⟩,
  ⟨"000204", "GEMINI_MODEL_NOT_FOUND",
    "Requested Gemini model does not exist or is not available to this project."⟩,
  ⟨"000205", "GEMINI_INVALID_OUTPUT_SCHEMA",
    "Gemini returned structured output that violates the declared JSON schema."⟩,
  ⟨"000300", "CONFIG_ERROR",
    "Generic configuration error (invalid settings or incompatible options)."⟩,
  ⟨"000301", "CONFIG_MISSING_ENV",
    "Required environment variable is missing (e.g. GEMINI_API_KEY)."⟩,
  ⟨"000302", "CONFIG_INVALID_ENV_VALUE",
    "Environment variable is present but has an invalid or unsupported value."⟩,
  ⟨"000400", "INPUT_ERROR",
    "Generic input error (malformed data or unsupported format)."⟩,
  ⟨"000401", "INPUT_URL_LIST_EMPTY",
    "No URLs were provided for processing (urls.txt empty or filtered out)."⟩,
  ⟨"000402", "INPUT_URL_INVALID",
    "One or more URLs are invalid, malformed, or use an unsupported scheme."⟩,
  ⟨"000500", "SYSTEM_ERROR",
    "Generic system/runtime error (unexpected exception in the pipeline)."⟩,
  ⟨"000501", "SYSTEM_IO_ERROR",
    "Filesystem or I/O operation failed (read/write permissions, missing file, etc.)."⟩,
  ⟨"000502", "SYSTEM_DEPENDENCY_MISSING",
    "Required library, binary, or runtime dependency is missing or not installed."⟩,
  ⟨"000999", "UNEXPECTED_ERROR",
    "An unexpected, uncategorised error occurred that does not match other codes."⟩]

/-- `STATUS_BY_NAME = {row["cd_name"]: row for row in STATUS_DEFINITIONS}`:
a dict built by inserting each row keyed by its name, in catalog order. -/
def STATUS_BY_NAME : List (String × StatusRow) :=
  STATUS_DEFINITIONS.foldl (fun d row => assocSet d row.cd_name row) []

/-- The `UNEXPECTED_ERROR` catch-all row (the value of
`STATUS_BY_NAME["UNEXPECTED_ERROR"]`; see
`status_by_name_unexpected` below). -/
def UNEXPECTED_ERROR_row : StatusRow :=
  ⟨"000999", "UNEXPECTED_ERROR",
    "An unexpected, uncategorised error occurred that does not match other codes."⟩

/-- `_status_row` from `main.py`:
`STATUS_BY_NAME.get(status_name, STATUS_BY_NAME["UNEXPECTED_ERROR"])`. -/
def _status_row (status_name : String) : StatusRow :=
  (assocGet STATUS_BY_NAME status_name).getD UNEXPECTED_ERROR_row

theorem status_by_name_unexpected :
    assocGet STATUS_BY_NAME "UNEXPECTED_ERROR" = some UNEXPECTED_ERROR_row := by
  decide

/-! ## Record schema (`main.py`) -/

/-- The declared field set of a listing record, in declaration order. -/
def FIELD_NAMES : List String := [
  "url", "listing_title", "project_name", "area", "state", "price", "sq_ft",
  "bedrooms", "bathrooms", "property_type", "carpark", "floor_range",
  "phone_number", "description"]

/-- `empty_record(url)`: a dict binding every declared field, `url` to the
input URL and every other field to `None`. -/
def empty_record (url : String) : Dict :=
  FIELD_NAMES.map (fun k => (k, if k = "url" then JsonVal.str url else JsonVal.null))

/-! ## Phone-candidate extraction (`extract_phone_candidates_from_html`)

`main.py` applies four concrete regular expressions with `re.finditer`:

1. `\b01\d[-\s]?\d{3}[-\s]?\d{4}\b`
2. `\b01\d\d{7,8}\b`
3. `\b0\d{1,2}-\d{6,8}\b`
4. `\b6\d{8,11}\b`

Each matcher below is the Perl/Python backtracking semantics specialised to
one pattern: leftmost match wins, greedy quantifiers try the longest count
first and backtrack, `X?` tries the one-character alternative first.  A word
boundary `\b` before the leading digit holds when the previous character is
absent or not a word character; after the trailing digit it holds when the
next character is absent or not a word character. -/

/-- ASCII model of the regex class `\w` (the patterns only ever place `\b`
next to ASCII digits). -/
def isWordChar (c : Char) : Bool :=
  c.isAlphanum || c == '_'

/-- The regex class `\d` (ASCII digits). -/
def isDigitCh (c : Char) : Bool := c.isDigit

/-- The regex class `[-\s]`. -/
def isSepCh (c : Char) : Bool := c == '-' || isPySpace c

/-- `\b` immediately before a word character, given the preceding character
(`none` at the start of the input). -/
def startBoundary (prev : Option Char) : Bool :=
  match prev with
  | none => true
  | some p => !isWordChar p

/-- `\b` immediately after a word character, given the rest of the input. -/
def endBoundary (rest : List Char) : Bool :=
  match rest with
  | [] => true
  | c :: _ => !isWordChar c

/-- Consume exactly `n` characters satisfying `\d`. -/
def grabDigits : Nat → List Char → Option (List Char × List Char)
  | 0, cs => some ([], cs)
  | _ + 1, [] => none
  | n + 1, c :: cs =>
    if isDigitCh c then
      (grabDigits n cs).map (fun p => (c :: p.1, p.2))
    else none

/-- Consume one `[-\s]` character. -/
def grabSep : List Char → Option (Char × List Char)
  | [] => none
  | c :: cs => if isSepCh c then some (c, cs) else none

/-- Greedy `\d{n}` for `n` drawn from `counts` (listed longest first),
followed immediately by `\b`: the backtracking order of `\d{lo,hi}\b`. -/
def digitsThenBoundary (counts : List Nat) (cs : List Char) :
    Option (List Char × List Char) :=
  match counts with
  | [] => none
  | n :: ns =>
    match grabDigits n cs with
    | some (ds, r) =>
      if endBoundary r then some (ds, r) else digitsThenBoundary ns cs
    | none => digitsThenBoundary ns cs

/-- The tail `[-\s]?\d{3}[-\s]?\d{4}\b` of pattern 1 with the two optional
separators fixed present (`true`) or absent (`false`). -/
def pat1variant (s1 s2 : Bool) (rest : List Char) :
    Option (List Char × List Char) :=
  let step1 : Option (List Char × List Char) :=
    if s1 then (grabSep rest).map (fun p => ([p.1], p.2)) else some ([], rest)
  match step1 with
  | none => none
  | some (p1, r1) =>
    match grabDigits 3 r1 with
    | none => none
    | some (d3, r2) =>
      let step2 : Option (List Char × List Char) :=
        if s2 then (grabSep r2).map (fun p => ([p.1], p.2)) else some ([], r2)
      match step2 with
      | none => none
      | some (p2, r3) =>
        match grabDigits 4 r3 with
        | none => none
        | some (d4, r4) =>
          if endBoundary r4 then some (p1 ++ d3 ++ p2 ++ d4, r4) else none

/-- `\b01\d[-\s]?\d{3}[-\s]?\d{4}\b` anchored at the head of `cs`; returns
the matched characters and the remaining input.  Optional separators are
tried present-first, outer choice point backtracked last: variant order
(1,1), (1,0), (0,1), (0,0). -/
def pat1 (prev : Option Char) (cs : List Char) :
    Option (List Char × List Char) :=
  if startBoundary prev then
    match cs with
    | c0 :: c1 :: d :: rest =>
      if c0 = '0' ∧ c1 = '1' ∧ isDigitCh d then
        match pat1variant true true rest with
        | some (t, r) => some (c0 :: c1 :: d :: t, r)
        | none =>
          match pat1variant true false rest with
          | some (t, r) => some (c0 :: c1 :: d :: t, r)
          | none =>
            match pat1variant false true rest with
            | some (t, r) => some (c0 :: c1 :: d :: t, r)
            | none =>
              match pat1variant false false rest with
              | some (t, r) => some (c0 :: c1 :: d :: t, r)
              | none => none
      else none
    | _ => none
  else none

/-- `\b01\d\d{7,8}\b` anchored at the head of `cs`. -/
def pat2 (prev : Option Char) (cs : List Char) :
    Option (List Char × List Char) :=
  if startBoundary prev then
    match cs with
    | c0 :: c1 :: d :: rest =>
      if c0 = '0' ∧ c1 = '1' ∧ isDigitCh d then
        match digitsThenBoundary [8, 7] rest with
        | some (ds, r) => some (c0 :: c1 :: d :: ds, r)
        | none => none
      else none
    | _ => none
  else none

/-- The tail `\d{n}-\d{6,8}\b` of pattern 3 for a fixed digit count `n`. -/
def pat3core (n : Nat) (rest : List Char) : Option (List Char × List Char) :=
  match grabDigits n rest with
  | some (ds, r1) =>
    match r1 with
    | c :: r2 =>
      if c = '-' then
        (digitsThenBoundary [8, 7, 6] r2).map (fun p => (ds ++ c :: p.1, p.2))
      else none
    | [] => none
  | none => none

/-- `\b0\d{1,2}-\d{6,8}\b` anchored at the head of `cs` (greedy `\d{1,2}`:
two digits tried before one). -/
def pat3 (prev : Option Char) (cs : List Char) :
    Option (List Char × List Char) :=
  if startBoundary prev then
    match cs with
    | c0 :: rest =>
      if c0 = '0' then
        match pat3core 2 rest with
        | some (t, r) => some (c0 :: t, r)
        | none =>
          match pat3core 1 rest with
          | some (t, r) => some (c0 :: t, r)
          | none => none
      else none
    | [] => none
  else none

/-- `\b6\d{8,11}\b` anchored at the head of `cs`. -/
def pat4 (prev : Option Char) (cs : List Char) :
    Option (List Char × List Char) :=
  if startBoundary prev then
    match cs with
    | c0 :: rest =>
      if c0 = '6' then
        match digitsThenBoundary [11, 10, 9, 8] rest with
        | some (ds, r) => some (c0 :: ds, r)
        | none => none
      else none
    | [] => none
  else none

/-- A pattern matcher anchored at a position: given the previous character
and the remaining input, optionally the matched characters and the rest. -/
abbrev Matcher := Option Char → List Char → Option (List Char × List Char)

/-- `re.finditer` scan: try the matcher at each position left to right; on a
match, emit it and resume immediately after it (non-overlapping).  `fuel`
bounds the recursion and is always instantiated to more than the input
length. -/
def scanAux (matcher : Matcher) : Nat → Option Char → List Char →
    List (List Char)
  | 0, _, _ => []
  | _ + 1, _, [] => []
  | fuel + 1, prev, c :: rest =>
    match matcher prev (c :: rest) with
    | some (m, r) => m :: scanAux matcher fuel (m.getLastD c) r
    | none => scanAux matcher fuel (some c) rest

/-- All matches of a pattern over a string, in position order
(`[m.group(0) for m in re.finditer(pat, s)]`). -/
def findall (matcher : Matcher) (s : String) : List String :=
  (scanAux matcher (s.data.length + 1) none s.data).map String.mk

/-- The four phone patterns in the order `main.py` lists them. -/
def phone_patterns : List Matcher := [pat1, pat2, pat3, pat4]

/-- `extract_phone_candidates_from_html(raw_html)`: for each pattern in
order, for each match in position order, strip it and append it to the
candidate list unless already present. -/
def extract_phone_candidates_from_html (raw_html : String) : List String :=
  phone_patterns.foldl
    (fun candidates matcher =>
      (findall matcher raw_html).foldl
        (fun cand m =>
          let val := pystrip m
          if cand.contains val then cand else cand ++ [val])
        candidates)
    []

/-! ## Metadata (`GeminiMeta`, `make_meta`) -/

/-- The token-usage figures copied out of `response.usage_metadata`. -/
structure Usage where
  prompt_token_count : Option Nat
  candidates_token_count : Option Nat
  total_token_count : Option Nat
  deriving DecidableEq, Repr

/-- The `GeminiMeta` dataclass, fields in declaration order. -/
structure GeminiMeta where
  status_key : String
  status_code : String
  gemini_model : Option String
  gemini_attempts : Nat
  gemini_prompt_tokens : Option Nat
  gemini_response_tokens : Option Nat
  gemini_total_tokens : Option Nat
  gemini_duration_sec : Option Duration
  crawl_duration_sec : Option Duration
  total_duration_sec : Option Duration
  timestamp_utc : Option String
  deriving Repr

/-- `make_meta`: resolve the status through the registry, default a missing
usage dict to empty (`usage = usage or {}`), and stamp a fresh UTC timestamp
(the clock reading is the ambient parameter `ts`). -/
def make_meta (status_name : String) (crawl_duration_sec : Option Duration)
    (total_duration_sec : Option Duration) (gemini_model : Option String)
    (attempts : Nat) (usage : Option Usage)
    (gemini_duration_sec : Option Duration) (ts : String) : GeminiMeta :=
  let row := _status_row status_name
  let u := usage.getD ⟨none, none, none⟩
  ⟨row.cd_name, row.cd_std, gemini_model, attempts, u.prompt_token_count,
    u.candidates_token_count, u.total_token_count, gemini_duration_sec,
    crawl_duration_sec, total_duration_sec, some ts⟩

def optStrVal : Option String → JsonVal
  | none => JsonVal.null
  | some s => JsonVal.str s

def optNatVal : Option Nat → JsonVal
  | none => JsonVal.null
  | some n => JsonVal.nat n

/-- `asdict(meta)`: the metadata dataclass as a JSON object, keys in
dataclass field order. -/
def metaToJson (m : GeminiMeta) : JsonVal :=
  JsonVal.obj [
    ("status_key", JsonVal.str m.status_key),
    ("status_code", JsonVal.str m.status_code),
    ("gemini_model", optStrVal m.gemini_model),
    ("gemini_attempts", JsonVal.nat m.gemini_attempts),
    ("gemini_prompt_tokens", optNatVal m.gemini_prompt_tokens),
    ("gemini_response_tokens", optNatVal m.gemini_response_tokens),
    ("gemini_total_tokens", optNatVal m.gemini_total_tokens),
    ("gemini_duration_sec", optNatVal m.gemini_duration_sec),
    ("crawl_duration_sec", optNatVal m.crawl_duration_sec),
    ("total_duration_sec", optNatVal m.total_duration_sec),
    ("timestamp_utc", optStrVal m.timestamp_utc)]

/-- Field `f` of the metadata object attached to record `d` under the
reserved `meta` key. -/
def metaField (d : Dict) (f : String) : Option JsonVal :=
  match dictGet d "meta" with
  | some (JsonVal.obj kvs) => assocGet kvs f
  | _ => none

/-! ## Fetch stage (`fetch_page_text_and_html`) -/

/-- The `result.markdown` sub-object of a crawl result. -/
structure MarkdownResult where
  raw_markdown : Option String
  fit_markdown : Option String

/-- The crawl result object returned by `crawler.arun`, restricted to the
attributes `fetch_page_text_and_html` reads. -/
structure CrawlResult where
  success : Bool
  html : Option String
  cleaned_html : Option String
  markdown : Option MarkdownResult
  error_message : String

/-- `x or ""` on an optional string attribute. -/
def orEmpty (a : Option String) : String := a.getD ""

/-- `fetch_page_text_and_html(url, crawler)`.  The crawler call is the
external behaviour `arun`; it is applied to the stripped URL and either
raises (`Except.error`) or returns a `CrawlResult` together with the
measured crawl duration.  Returns `(page_text, raw_html, crawl_duration)`. -/
def fetch_page_text_and_html (url : String)
    (arun : String → Except PyErr (CrawlResult × Duration)) :
    Except PyErr (String × String × Duration) :=
  let url := pystrip url
  if url = "" then Except.error "Empty URL"
  else
    match arun url with
    | Except.error e => Except.error e
    | Except.ok (result, crawl_duration) =>
      if result.success = false then
        Except.error ("Crawl failed for " ++ url ++ ": " ++ result.error_message)
      else
        let raw_html := orEmpty result.html
        let cleaned_html := orEmpty result.cleaned_html
        let raw_md := orEmpty (result.markdown.bind MarkdownResult.raw_markdown)
        let page_text :=
          if raw_md ≠ "" then raw_md
          else if cleaned_html ≠ "" then cleaned_html
          else raw_html
        Except.ok (page_text, raw_html, crawl_duration)

/-! ## Gemini extraction (`extract_with_gemini`) -/

/-- Outcome of one loop iteration's external work, as observed at the
`except` boundary:

* `raise`: `generate_content` raised (no usage or duration recorded);
* `okParseFail`: the call returned (usage metadata, if reported, and the
  measured call duration are recorded) but `json.loads`/field access on the
  response raised;
* `okParsed`: the call returned and its text parsed into a JSON object
  (`data`). -/
inductive AttemptOutcome where
  | raise : AttemptOutcome
  | okParseFail (usage_meta : Option Usage) (dur : Duration) : AttemptOutcome
  | okParsed (usage_meta : Option Usage) (dur : Duration) (data : Dict) :
      AttemptOutcome

/-- Does the attempt end in a successfully parsed response? -/
def isParsedAttempt : AttemptOutcome → Bool
  | AttemptOutcome.okParsed _ _ _ => true
  | _ => false

/-- Result of the `while attempts < GEMINI_MAX_ATTEMPTS` loop: the attempt
counter, the last recorded usage dict and call duration, and on success the
parsed response object. -/
inductive LoopResult where
  | success (attempts : Nat) (usage : Option Usage) (gdur : Option Duration)
      (data : Dict) : LoopResult
  | exhausted (attempts : Nat) (usage : Option Usage)
      (gdur : Option Duration) : LoopResult

/-- The retry loop.  `remaining` is the number of iterations still allowed
(`GEMINI_MAX_ATTEMPTS - attempts`), `attemptF n` is the external behaviour
of attempt number `n` (1-based).  `usage` is only overwritten when the
response reports usage metadata; the call duration is overwritten whenever
`generate_content` returns. -/
def gemini_attempt_loop (attemptF : Nat → AttemptOutcome) :
    Nat → Nat → Option Usage → Option Duration → LoopResult
  | 0, attempts, usage, gdur => LoopResult.exhausted attempts usage gdur
  | remaining + 1, attempts, usage, gdur =>
    let attempts := attempts + 1
    match attemptF attempts with
    | AttemptOutcome.raise =>
      gemini_attempt_loop attemptF remaining attempts usage gdur
    | AttemptOutcome.okParseFail um dur =>
      gemini_attempt_loop attemptF remaining attempts
        (match um with | some u => some u | none => usage) (some dur)
    | AttemptOutcome.okParsed um dur data =>
      LoopResult.success attempts
        (match um with | some u => some u | none => usage) (some dur) data

/-- The record built on a successful parse: start from `empty_record`, then
for each declared field in order set `url` to the input URL and every other
field to `data.get(k, None)` (`null` when the collaborator omitted it). -/
def build_success_record (url : String) (data : Dict) : Dict :=
  FIELD_NAMES.foldl
    (fun r k =>
      dictSet r k
        (if k = "url" then JsonVal.str url
         else (assocGet data k).getD JsonVal.null))
    (empty_record url)

/-- `extract_with_gemini(client, url, page_text, raw_html,
crawl_duration_sec)`.  Configuration (`GEMINI_MAX_ATTEMPTS`, `GEMINI_MODEL`,
`MAX_CONTENT_CHARS`) is passed explicitly; `maxAttempts` is an `Int` because
the environment variable is parsed with `int()` and nothing forbids a
non-positive value.  The phone candidates and the truncated content only
feed the prompt sent to the external collaborator, whose behaviour is
`attemptF`.  `total_duration` is the ambient `perf_counter` reading for the
whole call, `ts` the ambient UTC timestamp. -/
def extract_with_gemini (url : String) (page_text : String)
    (raw_html : String) (crawl_duration_sec : Duration) (maxAttempts : Int)
    (gemini_model : String) (maxContentChars : Nat)
    (attemptF : Nat → AttemptOutcome) (total_duration : Duration)
    (ts : String) : Dict × GeminiMeta :=
  let _phone_candidates := extract_phone_candidates_from_html raw_html
  let _content := page_text.take maxContentChars
  match gemini_attempt_loop attemptF maxAttempts.toNat 0 none none with
  | LoopResult.success attempts usage gdur data =>
    (build_success_record url data,
      make_meta "SUCCESS" (some crawl_duration_sec) (some total_duration)
        (some gemini_model) attempts usage gdur ts)
  | LoopResult.exhausted attempts usage gdur =>
    (empty_record url,
      make_meta "GEMINI_CALL_FAILED" (some crawl_duration_sec)
        (some total_duration) (some gemini_model) attempts usage gdur ts)

/-! ## Per-URL pipeline (`process_url`) -/

/-- `process_url(url, crawler, client)`: run the fetch stage; on any
exception there, emit a url-only record with status `CRAWL_FAILED` and no
durations; otherwise run the extraction stage and attach its metadata under
the reserved `meta` key. -/
def process_url (url : String)
    (arun : String → Except PyErr (CrawlResult × Duration))
    (maxAttempts : Int) (gemini_model : String) (maxContentChars : Nat)
    (attemptF : Nat → AttemptOutcome) (total_duration : Duration)
    (ts : String) : Dict :=
  match fetch_page_text_and_html url arun with
  | Except.error _ =>
    let meta :=
      make_meta "CRAWL_FAILED" none none (some gemini_model) 0 none none ts
    dictSet (empty_record url) "meta" (metaToJson meta)
  | Except.ok (page_text, raw_html, crawl_duration) =>
    let rm :=
      extract_with_gemini url page_text raw_html crawl_duration maxAttempts
        gemini_model maxContentChars attemptF total_duration ts
    dictSet rm.1 "meta" (metaToJson rm.2)

/-! ## Run driver (`main`) -/

/-- `configure_gemini_client()`: the credential is
`os.getenv("GEMINI_API_KEY") or os.getenv("GOOGLE_API_KEY")`; a falsy result
(absent or empty) raises before any URL is processed. -/
def configure_gemini_client (gemini_api_key google_api_key : Option String) :
    Except PyErr String :=
  let api_key := pyOr gemini_api_key google_api_key
  if pyTruthy api_key = false then
    Except.error
      "GEMINI_API_KEY (or GOOGLE_API_KEY) is not set. Put it in your .env file or export it in your shell."
  else
    Except.ok (api_key.getD "")

/-- The URL-list filter in `main`: keep a line when its stripped form is
non-empty and the raw line does not start with `#`; the kept lines are
stripped. -/
def filter_urls (lines : List String) : List String :=
  (lines.filter (fun l => (pystrip l != "") && !(pystartswith l "#"))).map pystrip

/-- The url-only `SYSTEM_ERROR` record built in `main`'s per-URL `except`
arm. -/
def system_error_record (url : String) (gemini_model : String) (ts : String) :
    Dict :=
  let meta :=
    make_meta "SYSTEM_ERROR" none none (some gemini_model) 0 none none ts
  dictSet (empty_record url) "meta" (metaToJson meta)

/-- One iteration of `main`'s URL loop: the per-URL pipeline behaviour
`perUrl` either returns a record or raises, and a raise is downgraded to the
`SYSTEM_ERROR` record. -/
def main_loop_body (perUrl : String → Except PyErr Dict)
    (gemini_model : String) (ts : String) (url : String) : Dict :=
  match perUrl url with
  | Except.ok record => record
  | Except.error _ => system_error_record url gemini_model ts

/-- How a run of `main()` ends. -/
inductive RunOutcome where
  | fileNotFound : RunOutcome
  | noUrls : RunOutcome
  | credentialError (msg : PyErr) : RunOutcome
  | completed (results : List Dict) : RunOutcome

/-- `main()`: check the URL file exists, filter its lines, return early when
no URL survives, configure the client (fatal on missing credential), then
process every URL sequentially and write the accumulated results once.
`completed results` stands for the single final write of the results
array. -/
def main (urls_file_exists : Bool) (lines : List String)
    (gemini_api_key google_api_key : Option String) (gemini_model : String)
    (perUrl : String → Except PyErr Dict) (ts : String) : RunOutcome :=
  if urls_file_exists = false then RunOutcome.fileNotFound
  else
    let urls := filter_urls lines
    if urls.isEmpty then RunOutcome.noUrls
    else
      match configure_gemini_client gemini_api_key google_api_key with
      | Except.error e => RunOutcome.credentialError e
      | Except.ok _ =>
        RunOutcome.completed (urls.map (main_loop_body perUrl gemini_model ts))

/-! ## Dictionary lemmas -/

theorem assocGet_cons {α : Type} (p : String × α) (d : List (String × α))
    (k : String) :
    assocGet (p :: d) k = if p.1 = k then some p.2 else assocGet d k := rfl

theorem assocGet_eq_none_iff {α : Type} (d : List (String × α)) (k : String) :
    assocGet d k = none ↔ ∀ p ∈ d, p.1 ≠ k := by
  induction d with
  | nil => simp [assocGet]
  | cons p d ih =>
    rw [assocGet_cons]
    by_cases h : p.1 = k
    · simp [h]
    · simp [h, ih]

theorem assocHas_iff {α : Type} (d : List (String × α)) (k : String) :
    assocHas d k = true ↔ ∃ p ∈ d, p.1 = k := by
  simp [assocHas, List.any_eq_true]

theorem assocGet_map_set_self {α : Type} (d : List (String × α))
    (k : String) (v : α) :
    assocGet (d.map (fun p => if p.1 = k then (k, v) else p)) k =
      if assocHas d k then some v else none := by
  induction d with
  | nil => rfl
  | cons p d ih =>
    by_cases h : p.1 = k
    · simp [assocGet_cons, assocHas, h]
    · simp only [List.map_cons, h, if_false]
      rw [assocGet_cons]
      simp only [h, if_false, ih]
      have hd : decide (p.1 = k) = false := by simp [h]
      simp only [List.any_cons, hd, Bool.false_or, assocHas]

theorem assocGet_map_set_ne {α : Type} (d : List (String × α))
    (k k0 : String) (v : α) (h : k ≠ k0) :
    assocGet (d.map (fun p => if p.1 = k then (k, v) else p)) k0 =
      assocGet d k0 := by
  induction d with
  | nil => rfl
  | cons p d ih =>
    by_cases hp : p.1 = k
    · simp only [List.map_cons, hp, if_true]
      rw [assocGet_cons, assocGet_cons, ih]
      have hne : ¬ (k = k0) := h
      simp [hp, hne]
    · simp only [List.map_cons, hp, if_false]
      rw [assocGet_cons, assocGet_cons, ih]

theorem assocGet_set_self {α : Type} (d : List (String × α)) (k : String)
    (v : α) : assocGet (assocSet d k v) k = some v := by
  unfold assocSet
  by_cases h : assocHas d k
  · rw [if_pos h, assocGet_map_set_self, if_pos h]
  · rw [if_neg h]
    induction d with
    | nil => simp [assocGet_cons]
    | cons p d ih =>
      rw [List.cons_append, assocGet_cons]
      by_cases hpk : p.1 = k
      · exact absurd ((assocHas_iff _ _).mpr ⟨p, List.mem_cons_self p d, hpk⟩) h
      · simp only [hpk, if_false]
        exact ih (fun hd => h ((assocHas_iff _ _).mpr
          (by rcases (assocHas_iff _ _).mp hd with ⟨q, hq, he⟩
              exact ⟨q, List.mem_cons_of_mem _ hq, he⟩)))

theorem assocGet_set_ne {α : Type} (d : List (String × α)) (k k0 : String)
    (v : α) (h : k ≠ k0) : assocGet (assocSet d k0 v) k = assocGet d k := by
  unfold assocSet
  by_cases hany : assocHas d k0
  · rw [if_pos hany]
    exact assocGet_map_set_ne d k0 k v (fun he => h he.symm)
  · rw [if_neg hany]
    induction d with
    | nil =>
      rw [List.nil_append, assocGet_cons]
      have hne : ¬ (k0 = k) := fun he => h he.symm
      simp [hne, assocGet]
    | cons p d ih =>
      rw [List.cons_append, assocGet_cons, assocGet_cons]
      by_cases hpk : p.1 = k
      · simp [hpk]
      · simp only [hpk, if_false]
        exact ih (fun hd => hany ((assocHas_iff _ _).mpr
          (by rcases (assocHas_iff _ _).mp hd with ⟨q, hq, he⟩
              exact ⟨q, List.mem_cons_of_mem _ hq, he⟩)))

theorem dictGet_dictSet_self (d : Dict) (k : String) (v : JsonVal) :
    dictGet (dictSet d k v) k = some v :=
  assocGet_set_self d k v

theorem dictGet_dictSet_ne (d : Dict) (k k0 : String) (v : JsonVal)
    (h : k ≠ k0) : dictGet (dictSet d k0 v) k = dictGet d k :=
  assocGet_set_ne d k k0 v h

theorem mem_keys_iff_has (d : Dict) (k : String) :
    assocHas d k = true ↔ k ∈ dictKeys d := by
  rw [assocHas_iff]
  simp [dictKeys, List.mem_map]

theorem dictKeys_dictSet (d : Dict) (k : String) (v : JsonVal) :
    dictKeys (dictSet d k v) =
      if k ∈ dictKeys d then dictKeys d else dictKeys d ++ [k] := by
  unfold dictSet assocSet
  by_cases h : assocHas d k
  · rw [if_pos h, if_pos ((mem_keys_iff_has d k).mp h)]
    unfold dictKeys
    rw [List.map_map]
    apply List.map_congr_left
    intro p _
    by_cases hp : p.1 = k
    · simp [hp]
    · simp [hp]
  · rw [if_neg h, if_neg (fun hm => h ((mem_keys_iff_has d k).mpr hm))]
    simp [dictKeys]

/-- Lookup in a dict tabulated over a key list. -/
theorem dictGet_tab (l : List String) (f : String → JsonVal) (k : String) :
    dictGet (l.map (fun x => (x, f x))) k =
      if k ∈ l then some (f k) else none := by
  induction l with
  | nil => rfl
  | cons x l ih =>
    simp only [List.map_cons]
    rw [show dictGet ((x, f x) :: l.map (fun x => (x, f x))) k =
        if x = k then some (f x) else dictGet (l.map (fun x => (x, f x))) k
      from assocGet_cons (x, f x) _ k]
    by_cases hx : x = k
    · subst hx
      simp
    · have hx2 : ¬ (k = x) := fun he => hx he.symm
      simp only [hx, if_false, ih, List.mem_cons]
      by_cases hk : k ∈ l
      · simp [hk, hx2]
      · simp [hk, hx2]

theorem dictKeys_tab (l : List String) (f : String → JsonVal) :
    dictKeys (l.map (fun x => (x, f x))) = l := by
  induction l with
  | nil => rfl
  | cons x l ih =>
    simp only [List.map_cons, dictKeys] at *
    rw [ih]

theorem dictKeys_empty_record (url : String) :
    dictKeys (empty_record url) = FIELD_NAMES :=
  dictKeys_tab _ _

theorem dictGet_empty_record (url : String) (k : String) :
    dictGet (empty_record url) k =
      if k ∈ FIELD_NAMES then
        some (if k = "url" then JsonVal.str url else JsonVal.null)
      else none :=
  dictGet_tab _ _ k

/-- Folding `dictSet` over keys not containing `k0` preserves `dictGet` at
`k0`. -/
theorem dictGet_fold_preserve (ks : List String) (g : String → JsonVal)
    (d : Dict) (k0 : String) (h : k0 ∉ ks) :
    dictGet (ks.foldl (fun r k => dictSet r k (g k)) d) k0 = dictGet d k0 := by
  induction ks generalizing d with
  | nil => rfl
  | cons k ks ih =>
    rw [List.foldl_cons]
    rw [ih (dictSet d k (g k)) (fun hm => h (List.mem_cons_of_mem _ hm))]
    exact dictGet_dictSet_ne d k0 k (g k)
      (fun he => h (he ▸ List.mem_cons_self k ks))

/-- Folding `dictSet` over a duplicate-free key list: each key ends up bound
to its assigned value. -/
theorem dictGet_fold_mem (ks : List String) (g : String → JsonVal) (d : Dict)
    (k0 : String) (hmem : k0 ∈ ks) (hnd : ks.Nodup) :
    dictGet (ks.foldl (fun r k => dictSet r k (g k)) d) k0 = some (g k0) := by
  induction ks generalizing d with
  | nil => cases hmem
  | cons k ks ih =>
    rw [List.foldl_cons]
    rcases List.mem_cons.mp hmem with he | hm
    · subst he
      rw [dictGet_fold_preserve ks g _ k0 (List.nodup_cons.mp hnd).1]
      exact dictGet_dictSet_self d k0 (g k0)
    · exact ih (dictSet d k (g k)) hm (List.nodup_cons.mp hnd).2

/-- Folding `dictSet` over keys already present leaves the key list
unchanged. -/
theorem dictKeys_fold_subset (ks : List String) (g : String → JsonVal)
    (d : Dict) (h : ∀ k ∈ ks, k ∈ dictKeys d) :
    dictKeys (ks.foldl (fun r k => dictSet r k (g k)) d) = dictKeys d := by
  induction ks generalizing d with
  | nil => rfl
  | cons k ks ih =>
    rw [List.foldl_cons]
    have hk : k ∈ dictKeys d := h k (List.mem_cons_self k ks)
    have hset : dictKeys (dictSet d k (g k)) = dictKeys d := by
      rw [dictKeys_dictSet, if_pos hk]
    rw [ih (dictSet d k (g k))
      (fun x hx => by rw [hset]; exact h x (List.mem_cons_of_mem _ hx)), hset]

theorem field_names_nodup : FIELD_NAMES.Nodup := by decide

theorem meta_not_field : "meta" ∉ FIELD_NAMES := by decide


/-- A successful lookup returns a binding of the dict. -/
theorem assocGet_mem {α : Type} (d : List (String × α)) (k : String) (v : α)
    (h : assocGet d k = some v) : (k, v) ∈ d := by
  induction d with
  | nil => cases h
  | cons p d ih =>
    rw [assocGet_cons] at h
    by_cases hp : p.1 = k
    · rw [if_pos hp] at h
      cases h
      have hpe : p = (k, p.2) := by
        rw [← hp]
      rw [← hpe]
      exact List.mem_cons_self p d
    · rw [if_neg hp] at h
      exact List.mem_cons_of_mem _ (ih h)

/-- The key projection of `STATUS_BY_NAME` is the catalog's name column. -/
theorem status_by_name_fst :
    STATUS_BY_NAME.map Prod.fst = STATUS_DEFINITIONS.map StatusRow.cd_name := by
  decide

/-- Every value bound in `STATUS_BY_NAME` is a catalog row. -/
theorem status_by_name_snd :
    ∀ p ∈ STATUS_BY_NAME, p.2 ∈ STATUS_DEFINITIONS := by
  decide

/-- C6: for every input string, the status lookup is total over the static
catalog: a registered name resolves to its unique catalog row (names are
duplicate-free), every unknown name resolves to the `UNEXPECTED_ERROR` row,
and every lookup result is a catalog row (the lookup never fails). -/
theorem claim_C6 :
    (∀ row ∈ STATUS_DEFINITIONS, _status_row row.cd_name = row) ∧
    (∀ name : String, (∀ row ∈ STATUS_DEFINITIONS, row.cd_name ≠ name) →
      _status_row name = UNEXPECTED_ERROR_row) ∧
    (∀ name : String, _status_row name ∈ STATUS_DEFINITIONS) ∧
    (STATUS_DEFINITIONS.map StatusRow.cd_name).Nodup := by
  refine ⟨by decide, ?_, ?_, by decide⟩
  · intro name h
    unfold _status_row
    have hnone : assocGet STATUS_BY_NAME name = none := by
      rw [assocGet_eq_none_iff]
      intro p hp
      have hmem : p.1 ∈ STATUS_BY_NAME.map Prod.fst :=
        List.mem_map_of_mem Prod.fst hp
      rw [status_by_name_fst] at hmem
      rcases List.mem_map.mp hmem with ⟨row, hrow, he⟩
      rw [← he]
      exact h row hrow
    rw [hnone]
    rfl
  · intro name
    unfold _status_row
    cases hg : assocGet STATUS_BY_NAME name with
    | none => decide
    | some row =>
      exact status_by_name_snd (name, row) (assocGet_mem _ _ _ hg)

/-- Witness for C6 at concrete inputs: a registered name and an unknown
name. -/
theorem claim_C6_witness :
    _status_row "CRAWL_FAILED" =
      ⟨"000100", "CRAWL_FAILED",
        "Generic crawl failure (navigation, page load, or unknown browser error)."⟩ ∧
    _status_row "NO_SUCH_STATUS" = UNEXPECTED_ERROR_row :=
  ⟨claim_C6.1
      ⟨"000100", "CRAWL_FAILED",
        "Generic crawl failure (navigation, page load, or unknown browser error)."⟩
      (by decide),
    claim_C6.2.1 "NO_SUCH_STATUS" (by decide)⟩


/-- The content-selection policy as the spec words it: prefer the structured
extracted text when non-empty, otherwise the cleaned markup when non-empty,
otherwise the raw markup.  Stated separately from
`fetch_page_text_and_html` so the code's selection can be compared against
the spec's. -/
def spec_content_selection (structured cleaned_markup raw_markup : String) :
    String :=
  if structured ≠ "" then structured
  else if cleaned_markup ≠ "" then cleaned_markup
  else raw_markup

/-- C8: on a successful fetch, the text carried onward is chosen by the
fixed fallback chain over the three content representations: structured
extracted text (`raw_markdown`), else cleaned markup (`cleaned_html`), else
raw markup (`html`). -/
theorem claim_C8 (url : String)
    (arun : String → Except PyErr (CrawlResult × Duration))
    (res : CrawlResult) (dur : Duration)
    (hurl : pystrip url ≠ "")
    (harun : arun (pystrip url) = Except.ok (res, dur))
    (hsucc : res.success = true) :
    fetch_page_text_and_html url arun =
      Except.ok
        (spec_content_selection
            (orEmpty (res.markdown.bind MarkdownResult.raw_markdown))
            (orEmpty res.cleaned_html) (orEmpty res.html),
          orEmpty res.html, dur) := by
  unfold fetch_page_text_and_html spec_content_selection
  rw [if_neg hurl, harun]
  simp [hsucc]

/-- Witness for C8: a fetch result carrying all three representations, with
an empty structured text, selects the cleaned markup. -/
theorem claim_C8_witness :
    fetch_page_text_and_html "u"
        (fun _ => Except.ok
          (⟨true, some "<html>", some "<div>clean</div>",
            some ⟨some "", some "fit"⟩, ""⟩, 7)) =
      Except.ok ("<div>clean</div>", "<html>", 7) :=
  claim_C8 "u" _ ⟨true, some "<html>", some "<div>clean</div>",
      some ⟨some "", some "fit"⟩, ""⟩ 7
    (by decide) rfl rfl

/-- C10: when the URL file exists but every line is blank or a comment, the
driver returns early: no URL is processed, the credential is never checked
(the outcome is the same for any credential environment, including an absent
one), and nothing is written. -/
theorem claim_C10 (lines : List String)
    (gemini_api_key google_api_key : Option String) (model ts : String)
    (perUrl : String → Except PyErr Dict)
    (h : ∀ l ∈ lines, pystrip l = "" ∨ pystartswith l "#" = true) :
    main true lines gemini_api_key google_api_key model perUrl ts =
      RunOutcome.noUrls := by
  have hurls : filter_urls lines = [] := by
    unfold filter_urls
    have hfil : lines.filter
        (fun l => (pystrip l != "") && !(pystartswith l "#")) = [] := by
      rw [List.filter_eq_nil_iff]
      intro l hl
      rcases h l hl with hb | hc
      · simp [hb]
      · simp [hc]
    rw [hfil]
    rfl
  unfold main
  rw [hurls]
  rfl

/-- Witness for C10: a file of one blank line, one comment line and one
whitespace line, with no credential configured, still returns early rather
than raising the missing-credential error. -/
theorem claim_C10_witness :
    main true ["", "# https://example.com", "   "] none none "model"
        (fun _ => Except.error "never called") "ts" = RunOutcome.noUrls :=
  claim_C10 ["", "# https://example.com", "   "] none none "model" "ts"
    (fun _ => Except.error "never called") (by decide)


/-! ## Pipeline lemmas -/

/-- A key present in a dict's key list has a value. -/
theorem dictGet_isSome_of_mem_keys (d : Dict) (k : String)
    (h : k ∈ dictKeys d) : ∃ v, dictGet d k = some v := by
  induction d with
  | nil => cases h
  | cons p d ih =>
    rw [show dictGet (p :: d) k = if p.1 = k then some p.2 else dictGet d k
      from assocGet_cons p d k]
    by_cases hp : p.1 = k
    · exact ⟨p.2, if_pos hp⟩
    · rw [if_neg hp]
      simp only [dictKeys, List.map_cons] at h
      rcases List.mem_cons.mp h with he | hm
      · exact absurd he.symm hp
      · exact ih hm

theorem build_success_record_keys (url : String) (data : Dict) :
    dictKeys (build_success_record url data) = FIELD_NAMES := by
  unfold build_success_record
  rw [dictKeys_fold_subset]
  · exact dictKeys_empty_record url
  · intro k hk
    rw [dictKeys_empty_record]
    exact hk

theorem build_success_record_get (url : String) (data : Dict) (k : String)
    (hk : k ∈ FIELD_NAMES) :
    dictGet (build_success_record url data) k =
      some (if k = "url" then JsonVal.str url
            else (assocGet data k).getD JsonVal.null) := by
  unfold build_success_record
  exact dictGet_fold_mem FIELD_NAMES _ (empty_record url) k hk field_names_nodup

/-- `extract_with_gemini` unfolded over the loop outcome. -/
theorem extract_with_gemini_eq (url pt rh : String) (cd : Duration)
    (ma : Int) (gm : String) (mc : Nat) (f : Nat → AttemptOutcome)
    (td : Duration) (ts : String) :
    extract_with_gemini url pt rh cd ma gm mc f td ts =
      match gemini_attempt_loop f ma.toNat 0 none none with
      | LoopResult.success a u g data =>
        (build_success_record url data,
          make_meta "SUCCESS" (some cd) (some td) (some gm) a u g ts)
      | LoopResult.exhausted a u g =>
        (empty_record url,
          make_meta "GEMINI_CALL_FAILED" (some cd) (some td) (some gm) a u g
            ts) := rfl

/-- The two components of `extract_with_gemini` when the loop succeeds. -/
theorem extract_fst_success (url pt rh : String) (cd : Duration) (ma : Int)
    (gm : String) (mc : Nat) (f : Nat → AttemptOutcome) (td : Duration)
    (ts : String) (a : Nat) (u : Option Usage) (g : Option Duration)
    (data : Dict)
    (h : gemini_attempt_loop f ma.toNat 0 none none =
      LoopResult.success a u g data) :
    (extract_with_gemini url pt rh cd ma gm mc f td ts).1 =
      build_success_record url data := by
  rw [extract_with_gemini_eq, h]

theorem extract_snd_success (url pt rh : String) (cd : Duration) (ma : Int)
    (gm : String) (mc : Nat) (f : Nat → AttemptOutcome) (td : Duration)
    (ts : String) (a : Nat) (u : Option Usage) (g : Option Duration)
    (data : Dict)
    (h : gemini_attempt_loop f ma.toNat 0 none none =
      LoopResult.success a u g data) :
    (extract_with_gemini url pt rh cd ma gm mc f td ts).2 =
      make_meta "SUCCESS" (some cd) (some td) (some gm) a u g ts := by
  rw [extract_with_gemini_eq, h]

/-- The two components of `extract_with_gemini` when the loop exhausts. -/
theorem extract_fst_exhausted (url pt rh : String) (cd : Duration) (ma : Int)
    (gm : String) (mc : Nat) (f : Nat → AttemptOutcome) (td : Duration)
    (ts : String) (a : Nat) (u : Option Usage) (g : Option Duration)
    (h : gemini_attempt_loop f ma.toNat 0 none none =
      LoopResult.exhausted a u g) :
    (extract_with_gemini url pt rh cd ma gm mc f td ts).1 =
      empty_record url := by
  rw [extract_with_gemini_eq, h]

theorem extract_snd_exhausted (url pt rh : String) (cd : Duration) (ma : Int)
    (gm : String) (mc : Nat) (f : Nat → AttemptOutcome) (td : Duration)
    (ts : String) (a : Nat) (u : Option Usage) (g : Option Duration)
    (h : gemini_attempt_loop f ma.toNat 0 none none =
      LoopResult.exhausted a u g) :
    (extract_with_gemini url pt rh cd ma gm mc f td ts).2 =
      make_meta "GEMINI_CALL_FAILED" (some cd) (some td) (some gm) a u g
        ts := by
  rw [extract_with_gemini_eq, h]

/-- `process_url` unfolded over the fetch outcome. -/
theorem process_url_eq (url : String)
    (arun : String → Except PyErr (CrawlResult × Duration)) (ma : Int)
    (gm : String) (mc : Nat) (f : Nat → AttemptOutcome) (td : Duration)
    (ts : String) :
    process_url url arun ma gm mc f td ts =
      match fetch_page_text_and_html url arun with
      | Except.error _ =>
        dictSet (empty_record url) "meta"
          (metaToJson (make_meta "CRAWL_FAILED" none none (some gm) 0 none
            none ts))
      | Except.ok (pt, rh, cd) =>
        dictSet (extract_with_gemini url pt rh cd ma gm mc f td ts).1 "meta"
          (metaToJson (extract_with_gemini url pt rh cd ma gm mc f td ts).2)
      := rfl

/-- `process_url` when the fetch stage raises. -/
theorem process_url_error_eq (url : String)
    (arun : String → Except PyErr (CrawlResult × Duration)) (ma : Int)
    (gm : String) (mc : Nat) (f : Nat → AttemptOutcome) (td : Duration)
    (ts : String) (e : PyErr)
    (h : fetch_page_text_and_html url arun = Except.error e) :
    process_url url arun ma gm mc f td ts =
      dictSet (empty_record url) "meta"
        (metaToJson (make_meta "CRAWL_FAILED" none none (some gm) 0 none none
          ts)) := by
  rw [process_url_eq, h]

/-- `process_url` when the fetch stage succeeds. -/
theorem process_url_ok_eq (url pt rh : String) (cd : Duration)
    (arun : String → Except PyErr (CrawlResult × Duration)) (ma : Int)
    (gm : String) (mc : Nat) (f : Nat → AttemptOutcome) (td : Duration)
    (ts : String)
    (h : fetch_page_text_and_html url arun = Except.ok (pt, rh, cd)) :
    process_url url arun ma gm mc f td ts =
      dictSet (extract_with_gemini url pt rh cd ma gm mc f td ts).1 "meta"
        (metaToJson (extract_with_gemini url pt rh cd ma gm mc f td ts).2) := by
  rw [process_url_eq, h]

/-- Reading a field of the attached metadata object. -/
theorem metaField_set (record : Dict) (m : GeminiMeta) (f : String) :
    metaField (dictSet record "meta" (metaToJson m)) f =
      assocGet [
        ("status_key", JsonVal.str m.status_key),
        ("status_code", JsonVal.str m.status_code),
        ("gemini_model", optStrVal m.gemini_model),
        ("gemini_attempts", JsonVal.nat m.gemini_attempts),
        ("gemini_prompt_tokens", optNatVal m.gemini_prompt_tokens),
        ("gemini_response_tokens", optNatVal m.gemini_response_tokens),
        ("gemini_total_tokens", optNatVal m.gemini_total_tokens),
        ("gemini_duration_sec", optNatVal m.gemini_duration_sec),
        ("crawl_duration_sec", optNatVal m.crawl_duration_sec),
        ("total_duration_sec", optNatVal m.total_duration_sec),
        ("timestamp_utc", optStrVal m.timestamp_utc)] f := by
  unfold metaField
  rw [show dictGet (dictSet record "meta" (metaToJson m)) "meta" =
      some (metaToJson m) from dictGet_dictSet_self record "meta" _]
  rfl

theorem metaField_status_key (record : Dict) (m : GeminiMeta) :
    metaField (dictSet record "meta" (metaToJson m)) "status_key" =
      some (JsonVal.str m.status_key) := by
  rw [metaField_set]
  rfl

theorem metaField_status_code (record : Dict) (m : GeminiMeta) :
    metaField (dictSet record "meta" (metaToJson m)) "status_code" =
      some (JsonVal.str m.status_code) := by
  rw [metaField_set]
  rfl

theorem metaField_attempts (record : Dict) (m : GeminiMeta) :
    metaField (dictSet record "meta" (metaToJson m)) "gemini_attempts" =
      some (JsonVal.nat m.gemini_attempts) := by
  rw [metaField_set]
  rfl

theorem metaField_crawl_duration (record : Dict) (m : GeminiMeta) :
    metaField (dictSet record "meta" (metaToJson m)) "crawl_duration_sec" =
      some (optNatVal m.crawl_duration_sec) := by
  rw [metaField_set]
  rfl

theorem metaField_gemini_duration (record : Dict) (m : GeminiMeta) :
    metaField (dictSet record "meta" (metaToJson m)) "gemini_duration_sec" =
      some (optNatVal m.gemini_duration_sec) := by
  rw [metaField_set]
  rfl

theorem metaField_total_duration (record : Dict) (m : GeminiMeta) :
    metaField (dictSet record "meta" (metaToJson m)) "total_duration_sec" =
      some (optNatVal m.total_duration_sec) := by
  rw [metaField_set]
  rfl


/-- When every attempt in range fails to parse, the retry loop runs its full
budget and exhausts with the counter advanced by exactly the budget. -/
theorem gemini_attempt_loop_exhausted (f : Nat → AttemptOutcome)
    (fuel : Nat) :
    ∀ (a : Nat) (u : Option Usage) (g : Option Duration),
      (∀ n, a < n → n ≤ a + fuel → isParsedAttempt (f n) = false) →
      ∃ u2 g2, gemini_attempt_loop f fuel a u g =
        LoopResult.exhausted (a + fuel) u2 g2 := by
  induction fuel with
  | zero => exact fun a u g _ => ⟨u, g, rfl⟩
  | succ fuel ih =>
    intro a u g h
    have hstep : gemini_attempt_loop f (fuel + 1) a u g =
        match f (a + 1) with
        | AttemptOutcome.raise => gemini_attempt_loop f fuel (a + 1) u g
        | AttemptOutcome.okParseFail um dur =>
          gemini_attempt_loop f fuel (a + 1)
            (match um with | some u0 => some u0 | none => u) (some dur)
        | AttemptOutcome.okParsed um dur data =>
          LoopResult.success (a + 1)
            (match um with | some u0 => some u0 | none => u) (some dur)
            data := rfl
    cases hf : f (a + 1) with
    | raise =>
      rcases ih (a + 1) u g
          (fun n h1 h2 => h n (by omega) (by omega)) with ⟨u2, g2, he⟩
      refine ⟨u2, g2, ?_⟩
      rw [hstep, hf]
      dsimp only
      rw [he]
      have harith : a + 1 + fuel = a + (fuel + 1) := by omega
      rw [harith]
    | okParseFail um dur =>
      cases um with
      | some u0 =>
        rcases ih (a + 1) (some u0) (some dur)
            (fun n h1 h2 => h n (by omega) (by omega)) with ⟨u2, g2, he⟩
        refine ⟨u2, g2, ?_⟩
        rw [hstep, hf]
        dsimp only
        rw [he]
        have harith : a + 1 + fuel = a + (fuel + 1) := by omega
        rw [harith]
      | none =>
        rcases ih (a + 1) u (some dur)
            (fun n h1 h2 => h n (by omega) (by omega)) with ⟨u2, g2, he⟩
        refine ⟨u2, g2, ?_⟩
        rw [hstep, hf]
        dsimp only
        rw [he]
        have harith : a + 1 + fuel = a + (fuel + 1) := by omega
        rw [harith]
    | okParsed um dur data =>
      have hc := h (a + 1) (by omega) (by omega)
      rw [hf] at hc
      simp [isParsedAttempt] at hc

/-- C5: on every path — success, crawl failure, extraction exhaustion, and
the driver's system-error catch-all — the produced record's `url` field is
the input URL, whatever `url` value (if any) the extraction collaborator's
response carries. -/
theorem claim_C5 (url : String)
    (arun : String → Except PyErr (CrawlResult × Duration)) (ma : Int)
    (gm : String) (mc : Nat) (f : Nat → AttemptOutcome) (td : Duration)
    (ts : String) :
    dictGet (process_url url arun ma gm mc f td ts) "url" =
      some (JsonVal.str url) ∧
    dictGet (system_error_record url gm ts) "url" = some (JsonVal.str url) := by
  have hempty : ∀ u : String,
      dictGet (empty_record u) "url" = some (JsonVal.str u) := by
    intro u
    rw [dictGet_empty_record]
    rw [if_pos (show "url" ∈ FIELD_NAMES by decide), if_pos rfl]
  have hmeta : ∀ (d : Dict) (v : JsonVal),
      dictGet (dictSet d "meta" v) "url" = dictGet d "url" :=
    fun d v => dictGet_dictSet_ne d "url" "meta" v (by decide)
  constructor
  · rw [process_url_eq]
    cases hfetch : fetch_page_text_and_html url arun with
    | error e =>
      rw [hmeta]
      exact hempty url
    | ok ptc =>
      rcases ptc with ⟨pt, rh, cd⟩
      rw [hmeta]
      cases hl : gemini_attempt_loop f ma.toNat 0 none none with
      | success a u g data =>
        rw [extract_fst_success url pt rh cd ma gm mc f td ts a u g data hl]
        rw [build_success_record_get url data "url" (by decide)]
        rw [if_pos rfl]
      | exhausted a u g =>
        rw [extract_fst_exhausted url pt rh cd ma gm mc f td ts a u g hl]
        exact hempty url
  · unfold system_error_record
    rw [hmeta]
    exact hempty url

/-- C3: when the fetch stage fails (the crawler raises, or signals
non-success, or the URL is blank), the pipeline emits for that URL exactly
the url-only record with status `CRAWL_FAILED` (code `000100`), all non-url
fields null, and no crawl, extraction, or total duration recorded — and the
driver's loop goes on to the next URL with this record appended. -/
theorem claim_C3 (url : String)
    (arun : String → Except PyErr (CrawlResult × Duration)) (ma : Int)
    (gm : String) (mc : Nat) (f : Nat → AttemptOutcome) (td : Duration)
    (ts : String) (e : PyErr) (r : Dict)
    (hfail : fetch_page_text_and_html url arun = Except.error e)
    (hr : r = process_url url arun ma gm mc f td ts) :
    dictGet r "url" = some (JsonVal.str url) ∧
    (∀ k ∈ FIELD_NAMES, k ≠ "url" → dictGet r k = some JsonVal.null) ∧
    metaField r "status_key" = some (JsonVal.str "CRAWL_FAILED") ∧
    metaField r "status_code" = some (JsonVal.str "000100") ∧
    metaField r "crawl_duration_sec" = some JsonVal.null ∧
    metaField r "gemini_duration_sec" = some JsonVal.null ∧
    metaField r "total_duration_sec" = some JsonVal.null ∧
    (∀ (perUrl : String → Except PyErr Dict) (rest : List String),
      perUrl url = Except.ok r →
      (url :: rest).map (main_loop_body perUrl gm ts) =
        r :: rest.map (main_loop_body perUrl gm ts)) := by
  have hr2 : r = dictSet (empty_record url) "meta"
      (metaToJson (make_meta "CRAWL_FAILED" none none (some gm) 0 none none
        ts)) := by
    rw [hr, process_url_eq, hfail]
  subst hr2
  refine ⟨?_, ?_, ?_, ?_, ?_, ?_, ?_, ?_⟩
  · rw [dictGet_dictSet_ne _ _ _ _ (by decide), dictGet_empty_record,
      if_pos (show "url" ∈ FIELD_NAMES by decide), if_pos rfl]
  · intro k hk hne
    have hkm : k ≠ "meta" := fun he => meta_not_field (he ▸ hk)
    rw [dictGet_dictSet_ne _ _ _ _ hkm, dictGet_empty_record, if_pos hk,
      if_neg hne]
  · rw [metaField_status_key]
    rfl
  · rw [metaField_status_code]
    rfl
  · rw [metaField_crawl_duration]
    rfl
  · rw [metaField_gemini_duration]
    rfl
  · rw [metaField_total_duration]
    rfl
  · intro perUrl rest hok
    rw [List.map_cons]
    rw [show main_loop_body perUrl gm ts url = _ from rfl]
    unfold main_loop_body
    rw [hok]


/-- Witness for C3 at a concrete failing fetch. -/
theorem claim_C3_witness :
    metaField (process_url "https://x" (fun _ => Except.error "boom") 2 "m" 5
        (fun _ => AttemptOutcome.raise) 0 "t") "status_key" =
      some (JsonVal.str "CRAWL_FAILED") :=
  (claim_C3 "https://x" (fun _ => Except.error "boom") 2 "m" 5
    (fun _ => AttemptOutcome.raise) 0 "t" "boom" _ rfl rfl).2.2.1

/-- C4: when the fetch stage succeeds but every extraction attempt fails
(the collaborator raises or its response fails to parse), the emitted record
carries status `GEMINI_CALL_FAILED`, its recorded attempt count equals the
configured maximum attempt count, its `url` field is the input URL, and all
other declared fields are null — no partial record survives any failed
attempt. -/
theorem claim_C4 (url pt rh : String) (cd : Duration)
    (arun : String → Except PyErr (CrawlResult × Duration)) (ma : Int)
    (gm : String) (mc : Nat) (f : Nat → AttemptOutcome) (td : Duration)
    (ts : String) (r : Dict)
    (hfetch : fetch_page_text_and_html url arun = Except.ok (pt, rh, cd))
    (hmax : 0 ≤ ma)
    (hfail : ∀ n, n ≤ ma.toNat → isParsedAttempt (f n) = false)
    (hr : r = process_url url arun ma gm mc f td ts) :
    metaField r "status_key" = some (JsonVal.str "GEMINI_CALL_FAILED") ∧
    metaField r "gemini_attempts" = some (JsonVal.nat ma.toNat) ∧
    (ma.toNat : Int) = ma ∧
    dictGet r "url" = some (JsonVal.str url) ∧
    (∀ k ∈ FIELD_NAMES, k ≠ "url" → dictGet r k = some JsonVal.null) := by
  rcases gemini_attempt_loop_exhausted f ma.toNat 0 none none
      (fun n h1 h2 => hfail n (by omega)) with ⟨u2, g2, hl⟩
  rw [Nat.zero_add] at hl
  have hr2 : r = dictSet (empty_record url) "meta"
      (metaToJson (make_meta "GEMINI_CALL_FAILED" (some cd) (some td)
        (some gm) ma.toNat u2 g2 ts)) := by
    rw [hr, process_url_ok_eq url pt rh cd arun ma gm mc f td ts hfetch,
      extract_fst_exhausted url pt rh cd ma gm mc f td ts ma.toNat u2 g2 hl,
      extract_snd_exhausted url pt rh cd ma gm mc f td ts ma.toNat u2 g2 hl]
  subst hr2
  refine ⟨?_, ?_, Int.toNat_of_nonneg hmax, ?_, ?_⟩
  · rw [metaField_status_key]
    rfl
  · rw [metaField_attempts]
    rfl
  · rw [dictGet_dictSet_ne _ _ _ _ (by decide), dictGet_empty_record,
      if_pos (show "url" ∈ FIELD_NAMES by decide), if_pos rfl]
  · intro k hk hne
    have hkm : k ≠ "meta" := fun he => meta_not_field (he ▸ hk)
    rw [dictGet_dictSet_ne _ _ _ _ hkm, dictGet_empty_record, if_pos hk,
      if_neg hne]

/-- Witness for C4 at a concrete run: two attempts, both raising. -/
theorem claim_C4_witness :
    metaField (process_url "u"
        (fun _ => Except.ok
          (⟨true, some "<p>1</p>", some "", some ⟨some "", some ""⟩, ""⟩, 3))
        2 "m" 5 (fun _ => AttemptOutcome.raise) 0 "t") "gemini_attempts" =
      some (JsonVal.nat 2) :=
  (claim_C4 "u" "<p>1</p>" "<p>1</p>" 3
    (fun _ => Except.ok
      (⟨true, some "<p>1</p>", some "", some ⟨some "", some ""⟩, ""⟩, 3))
    2 "m" 5 (fun _ => AttemptOutcome.raise) 0 "t" _ rfl (by decide)
    (fun n _ => rfl) rfl).2.1


/-- C9: with a zero or negative configured maximum attempt count, the
extraction stage never invokes the collaborator (its result is the same for
every collaborator behaviour), and returns the url-only record with status
`GEMINI_CALL_FAILED` and a recorded attempt count of 0; for a negative
maximum the recorded count therefore differs from the configured maximum, so
the "attempt count equals the configured maximum" guarantee needs a
positivity precondition. -/
theorem claim_C9 (url pt rh : String) (cd : Duration) (ma : Int)
    (gm : String) (mc : Nat) (f : Nat → AttemptOutcome) (td : Duration)
    (ts : String) (hmax : ma ≤ 0) :
    (∀ f2 : Nat → AttemptOutcome,
      extract_with_gemini url pt rh cd ma gm mc f2 td ts =
        extract_with_gemini url pt rh cd ma gm mc f td ts) ∧
    (extract_with_gemini url pt rh cd ma gm mc f td ts).1 =
      empty_record url ∧
    (extract_with_gemini url pt rh cd ma gm mc f td ts).2.status_key =
      "GEMINI_CALL_FAILED" ∧
    (extract_with_gemini url pt rh cd ma gm mc f td ts).2.gemini_attempts =
      0 ∧
    (ma < 0 →
      ((extract_with_gemini url pt rh cd ma gm mc f td
          ts).2.gemini_attempts : Int) ≠ ma) := by
  have h0 : ma.toNat = 0 := Int.toNat_of_nonpos hmax
  have he : ∀ f2 : Nat → AttemptOutcome,
      extract_with_gemini url pt rh cd ma gm mc f2 td ts =
        (empty_record url,
          make_meta "GEMINI_CALL_FAILED" (some cd) (some td) (some gm) 0 none
            none ts) := by
    intro f2
    rw [extract_with_gemini_eq, h0]
    rfl
  refine ⟨fun f2 => by rw [he f2, he f], ?_, ?_, ?_, ?_⟩
  · rw [he f]
  · rw [he f]
    rfl
  · rw [he f]
    rfl
  · intro hneg
    rw [he f]
    show ((0 : Nat) : Int) ≠ ma
    omega

/-- Witness for C9 at the concrete configured maximum -1. -/
theorem claim_C9_witness :
    (extract_with_gemini "u" "text" "<p/>" 1 (-1) "m" 5
        (fun _ => AttemptOutcome.raise) 2 "t").2.gemini_attempts = 0 ∧
    (((extract_with_gemini "u" "text" "<p/>" 1 (-1) "m" 5
        (fun _ => AttemptOutcome.raise) 2 "t").2.gemini_attempts : Int) ≠
      (-1 : Int)) :=
  ⟨(claim_C9 "u" "text" "<p/>" 1 (-1) "m" 5 (fun _ => AttemptOutcome.raise) 2
      "t" (by decide)).2.2.2.1,
    (claim_C9 "u" "text" "<p/>" 1 (-1) "m" 5 (fun _ => AttemptOutcome.raise)
      2 "t" (by decide)).2.2.2.2 (by decide)⟩

/-- C2, as frozen, fails on the code: every record the pipeline emits also
carries the reserved `meta` key, so on a concrete crawl-failure record the
key set is not `FIELD_NAMES`. -/
theorem claim_C2_counterexample :
    ¬ ((dictKeys (process_url "u" (fun _ => Except.error "down") 2 "m" 5
          (fun _ => AttemptOutcome.raise) 0 "t")).toFinset =
        FIELD_NAMES.toFinset) := by
  intro h
  have hkeys : dictKeys (process_url "u" (fun _ => Except.error "down") 2 "m"
      5 (fun _ => AttemptOutcome.raise) 0 "t") = FIELD_NAMES ++ ["meta"] :=
    rfl
  have h1 : "meta" ∈ FIELD_NAMES.toFinset := by
    rw [← h, List.mem_toFinset, hkeys]
    simp
  exact meta_not_field (List.mem_toFinset.mp h1)

/-- C2 (amended): every record the pipeline produces — on success, crawl
failure, extraction exhaustion, and the driver's system-error path — has as
key set exactly the declared field set plus the reserved `meta` key, with
every declared field present (unextracted fields bound to null, never
omitted). -/
theorem claim_C2 (url : String)
    (arun : String → Except PyErr (CrawlResult × Duration)) (ma : Int)
    (gm : String) (mc : Nat) (f : Nat → AttemptOutcome) (td : Duration)
    (ts : String) :
    dictKeys (process_url url arun ma gm mc f td ts) =
      FIELD_NAMES ++ ["meta"] ∧
    dictKeys (system_error_record url gm ts) = FIELD_NAMES ++ ["meta"] ∧
    (∀ k ∈ FIELD_NAMES,
      ∃ v, dictGet (process_url url arun ma gm mc f td ts) k = some v) ∧
    (∀ k ∈ FIELD_NAMES,
      ∃ v, dictGet (system_error_record url gm ts) k = some v) := by
  have hset : ∀ (d : Dict) (v : JsonVal), dictKeys d = FIELD_NAMES →
      dictKeys (dictSet d "meta" v) = FIELD_NAMES ++ ["meta"] := by
    intro d v hd
    rw [dictKeys_dictSet, hd, if_neg meta_not_field]
  have hproc : dictKeys (process_url url arun ma gm mc f td ts) =
      FIELD_NAMES ++ ["meta"] := by
    rw [process_url_eq]
    cases hfetch : fetch_page_text_and_html url arun with
    | error e => exact hset _ _ (dictKeys_empty_record url)
    | ok ptc =>
      rcases ptc with ⟨pt, rh, cd⟩
      cases hl : gemini_attempt_loop f ma.toNat 0 none none with
      | success a u g data =>
        exact hset _ _
          ((extract_fst_success url pt rh cd ma gm mc f td ts a u g data
            hl) ▸ build_success_record_keys url data)
      | exhausted a u g =>
        exact hset _ _
          ((extract_fst_exhausted url pt rh cd ma gm mc f td ts a u g hl) ▸
            dictKeys_empty_record url)
  have hsys : dictKeys (system_error_record url gm ts) =
      FIELD_NAMES ++ ["meta"] :=
    hset _ _ (dictKeys_empty_record url)
  refine ⟨hproc, hsys, ?_, ?_⟩
  · intro k hk
    exact dictGet_isSome_of_mem_keys _ k
      (by rw [hproc]; exact List.mem_append_left _ hk)
  · intro k hk
    exact dictGet_isSome_of_mem_keys _ k
      (by rw [hsys]; exact List.mem_append_left _ hk)


/-- Witness for C2 at a concrete crawl-failure record. -/
theorem claim_C2_witness :
    dictKeys (process_url "u" (fun _ => Except.error "down") 2 "m" 5
        (fun _ => AttemptOutcome.raise) 0 "t") = FIELD_NAMES ++ ["meta"] ∧
    (∃ v, dictGet (process_url "u" (fun _ => Except.error "down") 2 "m" 5
        (fun _ => AttemptOutcome.raise) 0 "t") "phone_number" = some v) :=
  ⟨(claim_C2 "u" (fun _ => Except.error "down") 2 "m" 5
      (fun _ => AttemptOutcome.raise) 0 "t").1,
    (claim_C2 "u" (fun _ => Except.error "down") 2 "m" 5
      (fun _ => AttemptOutcome.raise) 0 "t").2.2.1 "phone_number"
      (by decide)⟩

/-- `main` on an existing file with surviving URLs and a usable credential:
the completed run writes the per-URL loop's image of the filtered URL
list. -/
theorem main_eq_completed (lines : List String)
    (gemini_api_key google_api_key : Option String) (gm : String)
    (perUrl : String → Except PyErr Dict) (ts : String) (key : String)
    (hkey : configure_gemini_client gemini_api_key google_api_key =
      Except.ok key)
    (hne : (filter_urls lines).isEmpty = false) :
    main true lines gemini_api_key google_api_key gm perUrl ts =
      RunOutcome.completed
        ((filter_urls lines).map (main_loop_body perUrl gm ts)) := by
  unfold main
  rw [if_neg (show ¬ (true = false) by decide)]
  simp only [hne]
  rw [if_neg (show ¬ (false = true) by decide)]
  rw [hkey]

/-- C1: whenever the run completes (file present, surviving URLs, credential
set), the written results sequence has exactly one record per surviving
input line, in input order; a per-URL exception never stops the run — it
contributes the url-only `SYSTEM_ERROR` (code `000500`) record in that URL's
position. -/
theorem claim_C1 (lines : List String)
    (gemini_api_key google_api_key : Option String) (gm : String)
    (perUrl : String → Except PyErr Dict) (ts : String) (key : String)
    (hkey : configure_gemini_client gemini_api_key google_api_key =
      Except.ok key)
    (hne : filter_urls lines ≠ []) :
    ∃ results,
      main true lines gemini_api_key google_api_key gm perUrl ts =
        RunOutcome.completed results ∧
      results.length = (filter_urls lines).length ∧
      (∀ i (h1 : i < results.length)
          (h2 : i < (filter_urls lines).length),
        results.get ⟨i, h1⟩ =
          main_loop_body perUrl gm ts ((filter_urls lines).get ⟨i, h2⟩)) ∧
      (∀ u e, perUrl u = Except.error e →
        main_loop_body perUrl gm ts u = system_error_record u gm ts ∧
        metaField (system_error_record u gm ts) "status_key" =
          some (JsonVal.str "SYSTEM_ERROR") ∧
        metaField (system_error_record u gm ts) "status_code" =
          some (JsonVal.str "000500") ∧
        dictGet (system_error_record u gm ts) "url" =
          some (JsonVal.str u)) := by
  have hne2 : (filter_urls lines).isEmpty = false := by
    cases hE : filter_urls lines with
    | nil => exact absurd hE hne
    | cons a l => rfl
  refine ⟨(filter_urls lines).map (main_loop_body perUrl gm ts),
    main_eq_completed lines gemini_api_key google_api_key gm perUrl ts key
      hkey hne2, List.length_map _ _, ?_, ?_⟩
  · intro i h1 h2
    rw [List.get_eq_getElem, List.get_eq_getElem, List.getElem_map]
  · intro u e hperr
    have hbody : main_loop_body perUrl gm ts u =
        system_error_record u gm ts := by
      unfold main_loop_body
      rw [hperr]
    refine ⟨hbody, ?_, ?_, ?_⟩
    · unfold system_error_record
      rw [metaField_status_key]
      rfl
    · unfold system_error_record
      rw [metaField_status_code]
      rfl
    · unfold system_error_record
      rw [dictGet_dictSet_ne _ _ _ _ (by decide), dictGet_empty_record,
        if_pos (show "url" ∈ FIELD_NAMES by decide), if_pos rfl]

/-- Witness for C1: a three-line file (one URL, one blank line, one comment)
with a failing per-URL pipeline still completes with exactly one record. -/
theorem claim_C1_witness :
    ∃ results,
      main true ["https://a", "", "# b"] (some "k") none "m"
          (fun _ => Except.error "x") "t" = RunOutcome.completed results ∧
      results.length = 1 := by
  rcases claim_C1 ["https://a", "", "# b"] (some "k") none "m"
      (fun _ => Except.error "x") "t" "k" rfl (by decide) with
    ⟨rs, h1, h2, h3, h4⟩
  exact ⟨rs, h1, by rw [h2]; rfl⟩


/-! ## Phone-extractor lemmas -/

/-- A digit character is not Python whitespace. -/
theorem digit_not_space (c : Char) (h : isDigitCh c = true) :
    isPySpace c = false := by
  unfold isPySpace
  by_contra hs
  have hs2 : (c == ' ' || c == '\t' || c == '\n' || c == '\r' ||
      c.val == 11 || c.val == 12) = true := by
    cases hb : (c == ' ' || c == '\t' || c == '\n' || c == '\r' ||
        c.val == 11 || c.val == 12)
    · exact absurd hb hs
    · rfl
  simp only [Bool.or_eq_true, beq_iff_eq] at hs2
  unfold isDigitCh at h
  rcases hs2 with ((((h1 | h1) | h1) | h1) | h1) | h1
  · subst h1; exact absurd h (by decide)
  · subst h1; exact absurd h (by decide)
  · subst h1; exact absurd h (by decide)
  · subst h1; exact absurd h (by decide)
  · rw [Char.isDigit, h1] at h; exact absurd h (by decide)
  · rw [Char.isDigit, h1] at h; exact absurd h (by decide)

/-- `grabDigits n` returns exactly `n` digit characters. -/
theorem grabDigits_spec (n : Nat) :
    ∀ (cs ds r : List Char), grabDigits n cs = some (ds, r) →
      ds.length = n ∧ ∀ c ∈ ds, isDigitCh c = true := by
  induction n with
  | zero =>
    intro cs ds r h
    unfold grabDigits at h
    cases h
    exact ⟨rfl, fun c hc => absurd hc (List.not_mem_nil c)⟩
  | succ n ih =>
    intro cs ds r h
    cases cs with
    | nil => cases h
    | cons c cs =>
      unfold grabDigits at h
      by_cases hd : isDigitCh c = true
      · rw [if_pos hd] at h
        cases hg : grabDigits n cs with
        | none => rw [hg] at h; cases h
        | some p =>
          rw [hg] at h
          rcases p with ⟨ds0, r0⟩
          simp only [Option.map_some'] at h
          cases h
          rcases ih cs _ _ hg with ⟨hlen, hdig⟩
          refine ⟨by simp [hlen], ?_⟩
          intro x hx
          rcases List.mem_cons.mp hx with he | hm
          · subst he; exact hd
          · exact hdig x hm
      · rw [if_neg hd] at h
        cases h

/-- `digitsThenBoundary` returns a digit run whose length is one of the
offered counts. -/
theorem digitsThenBoundary_spec (counts : List Nat) :
    ∀ (cs ds r : List Char), digitsThenBoundary counts cs = some (ds, r) →
      ∃ n ∈ counts, ds.length = n ∧ ∀ c ∈ ds, isDigitCh c = true := by
  induction counts with
  | nil => intro cs ds r h; cases h
  | cons n ns ih =>
    intro cs ds r h
    unfold digitsThenBoundary at h
    cases hg : grabDigits n cs with
    | none =>
      rw [hg] at h
      rcases ih cs ds r h with ⟨n2, hn2, hspec⟩
      exact ⟨n2, List.mem_cons_of_mem _ hn2, hspec⟩
    | some p =>
      rw [hg] at h
      rcases p with ⟨ds0, r0⟩
      dsimp only at h
      by_cases hb : endBoundary r0 = true
      · rw [if_pos hb] at h
        cases h
        rcases grabDigits_spec n cs _ _ hg with ⟨h1, h2⟩
        exact ⟨n, List.mem_cons_self n ns, h1, h2⟩
      · rw [if_neg hb] at h
        rcases ih cs ds r h with ⟨n2, hn2, hspec⟩
        exact ⟨n2, List.mem_cons_of_mem _ hn2, hspec⟩


/-- A successful pattern-1 tail ends in a four-digit block. -/
theorem pat1variant_spec (s1 s2 : Bool) (rest t r : List Char)
    (h : pat1variant s1 s2 rest = some (t, r)) :
    ∃ pre d4, t = pre ++ d4 ∧ d4.length = 4 ∧
      ∀ c ∈ d4, isDigitCh c = true := by
  simp only [pat1variant] at h
  cases hstep1 : (if s1 = true then
      (grabSep rest).map (fun p => ([p.1], p.2))
    else some (([] : List Char), rest)) with
  | none => rw [hstep1] at h; cases h
  | some q =>
    rw [hstep1] at h
    rcases q with ⟨p1, r1⟩
    dsimp only at h
    cases hg3 : grabDigits 3 r1 with
    | none => rw [hg3] at h; cases h
    | some q2 =>
      rw [hg3] at h
      rcases q2 with ⟨d3, r2⟩
      dsimp only at h
      cases hstep2 : (if s2 = true then
          (grabSep r2).map (fun p => ([p.1], p.2))
        else some (([] : List Char), r2)) with
      | none => rw [hstep2] at h; cases h
      | some q3 =>
        rw [hstep2] at h
        rcases q3 with ⟨p2, r3⟩
        dsimp only at h
        cases hg4 : grabDigits 4 r3 with
        | none => rw [hg4] at h; cases h
        | some q4 =>
          rw [hg4] at h
          rcases q4 with ⟨d4, r4⟩
          dsimp only at h
          by_cases hb : endBoundary r4 = true
          · rw [if_pos hb] at h
            cases h
            rcases grabDigits_spec 4 r3 _ _ hg4 with ⟨h1, h2⟩
            exact ⟨p1 ++ d3 ++ p2, d4, by simp [List.append_assoc], h1, h2⟩
          · rw [if_neg hb] at h
            cases h

/-- A successful pattern-3 tail ends in the digit run accepted by
`digitsThenBoundary`. -/
theorem pat3core_spec (n : Nat) (rest t r : List Char)
    (h : pat3core n rest = some (t, r)) :
    ∃ pre ds2, t = pre ++ ds2 ∧ ds2 ≠ [] ∧
      ∀ c ∈ ds2, isDigitCh c = true := by
  unfold pat3core at h
  cases hg : grabDigits n rest with
  | none => rw [hg] at h; cases h
  | some q =>
    rw [hg] at h
    rcases q with ⟨ds, r1⟩
    dsimp only at h
    cases r1 with
    | nil => cases h
    | cons c r2 =>
      dsimp only at h
      by_cases hc : c = '-'
      · rw [if_pos hc] at h
        cases hdb : digitsThenBoundary [8, 7, 6] r2 with
        | none => rw [hdb] at h; cases h
        | some p2 =>
          rw [hdb] at h
          rcases p2 with ⟨ds2, r3⟩
          simp only [Option.map_some'] at h
          cases h
          rcases digitsThenBoundary_spec [8, 7, 6] r2 _ _ hdb with
            ⟨n2, hn2, hlen, hdig⟩
          refine ⟨ds ++ [c], ds2, ?_, ?_, hdig⟩
          · simp
          · intro hnil
            rw [hnil] at hlen
            simp at hlen
            subst hlen
            simp at hn2
      · rw [if_neg hc] at h
        cases h


/-- A matched substring starts and ends with a digit character. -/
def goodMatch (m : List Char) : Prop :=
  (∃ c t, m = c :: t ∧ isDigitCh c = true) ∧
  (∃ d t, m.reverse = d :: t ∧ isDigitCh d = true)

/-- A list ending in a non-empty all-digit block reversed starts with a
digit. -/
theorem reverse_head_digits (pre ds : List Char) (hne : ds ≠ [])
    (hd : ∀ c ∈ ds, isDigitCh c = true) :
    ∃ d t, (pre ++ ds).reverse = d :: t ∧ isDigitCh d = true := by
  cases hrev : ds.reverse with
  | nil =>
    exact absurd (by simpa using congrArg List.reverse hrev) hne
  | cons d t =>
    refine ⟨d, t ++ pre.reverse, ?_, ?_⟩
    · rw [List.reverse_append, hrev]
      rfl
    · have hmem : d ∈ ds.reverse := by
        rw [hrev]
        exact List.mem_cons_self d t
      exact hd d (List.mem_reverse.mp hmem)

theorem pat1_good (prev : Option Char) (cs m r : List Char)
    (h : pat1 prev cs = some (m, r)) : goodMatch m := by
  unfold pat1 at h
  by_cases hb : startBoundary prev = true
  · rw [if_pos hb] at h
    rcases cs with _ | ⟨c0, _ | ⟨c1, _ | ⟨d, rest⟩⟩⟩ <;> try cases h
    dsimp only at h
    by_cases hg : c0 = '0' ∧ c1 = '1' ∧ isDigitCh d = true
    · rw [if_pos hg] at h
      have hfin : ∀ (t0 : List Char),
          (∃ pre d4, t0 = pre ++ d4 ∧ d4.length = 4 ∧
            ∀ c ∈ d4, isDigitCh c = true) →
          m = c0 :: c1 :: d :: t0 → goodMatch m := by
        rintro t0 ⟨pre, d4, ht0, hlen, hdig⟩ hm
        constructor
        · exact ⟨c0, c1 :: d :: t0, hm, by rw [hg.1]; rfl⟩
        · subst hm
          subst ht0
          have : c0 :: c1 :: d :: (pre ++ d4) =
              (c0 :: c1 :: d :: pre) ++ d4 := by simp
          rw [this]
          exact reverse_head_digits (c0 :: c1 :: d :: pre) d4
            (by intro hnil; rw [hnil] at hlen; simp at hlen) hdig
      cases h1 : pat1variant true true rest with
      | some q =>
        rcases q with ⟨t0, r0⟩
        rw [h1] at h
        dsimp only at h
        cases h
        exact hfin t0 (pat1variant_spec true true rest t0 _ h1) rfl
      | none =>
        rw [h1] at h
        dsimp only at h
        cases h2 : pat1variant true false rest with
        | some q =>
          rcases q with ⟨t0, r0⟩
          rw [h2] at h
          dsimp only at h
          cases h
          exact hfin t0 (pat1variant_spec true false rest t0 _ h2) rfl
        | none =>
          rw [h2] at h
          dsimp only at h
          cases h3 : pat1variant false true rest with
          | some q =>
            rcases q with ⟨t0, r0⟩
            rw [h3] at h
            dsimp only at h
            cases h
            exact hfin t0 (pat1variant_spec false true rest t0 _ h3) rfl
          | none =>
            rw [h3] at h
            dsimp only at h
            cases h4 : pat1variant false false rest with
            | some q =>
              rcases q with ⟨t0, r0⟩
              rw [h4] at h
              dsimp only at h
              cases h
              exact hfin t0 (pat1variant_spec false false rest t0 _ h4) rfl
            | none =>
              rw [h4] at h
              cases h
    · rw [if_neg hg] at h
      cases h
  · rw [if_neg hb] at h
    cases h


theorem pat2_good (prev : Option Char) (cs m r : List Char)
    (h : pat2 prev cs = some (m, r)) : goodMatch m := by
  unfold pat2 at h
  by_cases hb : startBoundary prev = true
  · rw [if_pos hb] at h
    rcases cs with _ | ⟨c0, _ | ⟨c1, _ | ⟨d, rest⟩⟩⟩ <;> try cases h
    dsimp only at h
    by_cases hg : c0 = '0' ∧ c1 = '1' ∧ isDigitCh d = true
    · rw [if_pos hg] at h
      cases hdb : digitsThenBoundary [8, 7] rest with
      | none => rw [hdb] at h; cases h
      | some q =>
        rw [hdb] at h
        rcases q with ⟨ds, r0⟩
        dsimp only at h
        cases h
        rcases digitsThenBoundary_spec [8, 7] rest _ _ hdb with
          ⟨n2, hn2, hlen, hdig⟩
        constructor
        · exact ⟨c0, c1 :: d :: ds, rfl, by rw [hg.1]; rfl⟩
        · have heq : c0 :: c1 :: d :: ds = (c0 :: c1 :: [d]) ++ ds := by simp
          rw [heq]
          refine reverse_head_digits _ ds ?_ hdig
          intro hnil
          rw [hnil] at hlen
          simp at hlen
          subst hlen
          simp at hn2
    · rw [if_neg hg] at h
      cases h
  · rw [if_neg hb] at h
    cases h

theorem pat3_good (prev : Option Char) (cs m r : List Char)
    (h : pat3 prev cs = some (m, r)) : goodMatch m := by
  unfold pat3 at h
  by_cases hb : startBoundary prev = true
  · rw [if_pos hb] at h
    rcases cs with _ | ⟨c0, rest⟩
    · cases h
    · dsimp only at h
      by_cases hg : c0 = '0'
      · rw [if_pos hg] at h
        have hfin : ∀ (t0 : List Char),
            (∃ pre ds2, t0 = pre ++ ds2 ∧ ds2 ≠ [] ∧
              ∀ c ∈ ds2, isDigitCh c = true) →
            m = c0 :: t0 → goodMatch m := by
          rintro t0 ⟨pre, ds2, ht0, hne, hdig⟩ hm
          constructor
          · exact ⟨c0, t0, hm, by rw [hg]; rfl⟩
          · subst hm
            subst ht0
            have heq : c0 :: (pre ++ ds2) = (c0 :: pre) ++ ds2 := by simp
            rw [heq]
            exact reverse_head_digits (c0 :: pre) ds2 hne hdig
        cases h2 : pat3core 2 rest with
        | some q =>
          rcases q with ⟨t0, r0⟩
          rw [h2] at h
          dsimp only at h
          cases h
          exact hfin t0 (pat3core_spec 2 rest t0 _ h2) rfl
        | none =>
          rw [h2] at h
          dsimp only at h
          cases h1 : pat3core 1 rest with
          | some q =>
            rcases q with ⟨t0, r0⟩
            rw [h1] at h
            dsimp only at h
            cases h
            exact hfin t0 (pat3core_spec 1 rest t0 _ h1) rfl
          | none =>
            rw [h1] at h
            cases h
      · rw [if_neg hg] at h
        cases h
  · rw [if_neg hb] at h
    cases h

theorem pat4_good (prev : Option Char) (cs m r : List Char)
    (h : pat4 prev cs = some (m, r)) : goodMatch m := by
  unfold pat4 at h
  by_cases hb : startBoundary prev = true
  · rw [if_pos hb] at h
    rcases cs with _ | ⟨c0, rest⟩
    · cases h
    · dsimp only at h
      by_cases hg : c0 = '6'
      · rw [if_pos hg] at h
        cases hdb : digitsThenBoundary [11, 10, 9, 8] rest with
        | none => rw [hdb] at h; cases h
        | some q =>
          rw [hdb] at h
          rcases q with ⟨ds, r0⟩
          dsimp only at h
          cases h
          rcases digitsThenBoundary_spec [11, 10, 9, 8] rest _ _ hdb with
            ⟨n2, hn2, hlen, hdig⟩
          constructor
          · exact ⟨c0, ds, rfl, by rw [hg]; rfl⟩
          · have heq : c0 :: ds = [c0] ++ ds := by simp
            rw [heq]
            refine reverse_head_digits [c0] ds ?_ hdig
            intro hnil
            rw [hnil] at hlen
            simp at hlen
            subst hlen
            simp at hn2
      · rw [if_neg hg] at h
        cases h
  · rw [if_neg hb] at h
    cases h


/-- `str.strip()` leaves a digit-delimited match unchanged: no
normalization happens to matched substrings. -/
theorem pystrip_good (m : List Char) (hg : goodMatch m) :
    pystrip (String.mk m) = String.mk m := by
  rcases hg with ⟨⟨c, t, hm, hc⟩, ⟨d, t2, hrev, hd⟩⟩
  unfold pystrip
  have hdata : (String.mk m).data = m := rfl
  rw [hdata]
  have h1 : m.dropWhile isPySpace = m := by
    rw [hm, List.dropWhile_cons, digit_not_space c hc]
    simp
  rw [h1, hrev, List.dropWhile_cons, digit_not_space d hd]
  simp only [Bool.false_eq_true, if_false]
  rw [← hrev, List.reverse_reverse]

/-- Every emitted scan element is a match of the matcher somewhere. -/
theorem scanAux_mem (matcher : Matcher) (fuel : Nat) :
    ∀ (prev : Option Char) (cs : List Char) (m : List Char),
      m ∈ scanAux matcher fuel prev cs →
      ∃ prev2 cs2 r, matcher prev2 cs2 = some (m, r) := by
  induction fuel with
  | zero =>
    intro prev cs m h
    cases h
  | succ fuel ih =>
    intro prev cs m h
    cases cs with
    | nil => cases h
    | cons c rest =>
      unfold scanAux at h
      cases hm : matcher prev (c :: rest) with
      | none =>
        rw [hm] at h
        exact ih (some c) rest m h
      | some q =>
        rw [hm] at h
        rcases q with ⟨mm, r⟩
        dsimp only at h
        rcases List.mem_cons.mp h with he | hmem
        · subst he
          exact ⟨prev, c :: rest, r, hm⟩
        · exact ih _ r m hmem

/-- Every string produced by `findall` is a matched substring. -/
theorem findall_mem (matcher : Matcher) (s : String) (x : String)
    (h : x ∈ findall matcher s) :
    ∃ m prev cs r, x = String.mk m ∧ matcher prev cs = some (m, r) := by
  unfold findall at h
  rcases List.mem_map.mp h with ⟨m, hms, hxm⟩
  rcases scanAux_mem matcher (s.data.length + 1) none s.data m hms with
    ⟨prev2, cs2, r, hmr⟩
  exact ⟨m, prev2, cs2, r, hxm.symm, hmr⟩

/-- All four phone matchers produce digit-delimited matches. -/
theorem phone_patterns_good :
    ∀ matcher ∈ phone_patterns, ∀ (prev : Option Char) (cs m r : List Char),
      matcher prev cs = some (m, r) → goodMatch m := by
  intro matcher hmem
  simp only [phone_patterns, List.mem_cons, List.not_mem_nil,
    or_false] at hmem
  rcases hmem with rfl | rfl | rfl | rfl
  · exact fun prev cs m r h => pat1_good prev cs m r h
  · exact fun prev cs m r h => pat2_good prev cs m r h
  · exact fun prev cs m r h => pat3_good prev cs m r h
  · exact fun prev cs m r h => pat4_good prev cs m r h

/-- All matched substrings of the four patterns, applied sequentially,
each in left-to-right position order. -/
def allPhoneMatches (s : String) : List String :=
  (phone_patterns.map (fun matcher => findall matcher s)).flatten

/-- First-seen-order deduplication. -/
def dedupFirst (l : List String) : List String :=
  l.foldl (fun acc x => if acc.contains x then acc else acc ++ [x]) []


/-- With stripping a no-op on the elements, the inner fold of the extractor is
plain first-seen deduplication. -/
theorem inner_fold_eq (l : List String) (h : ∀ x ∈ l, pystrip x = x) :
    ∀ acc : List String,
      l.foldl (fun cand m =>
        let val := pystrip m
        if cand.contains val then cand else cand ++ [val]) acc =
      l.foldl (fun acc x => if acc.contains x then acc else acc ++ [x])
        acc := by
  induction l with
  | nil => intro acc; rfl
  | cons x l ih =>
    intro acc
    rw [List.foldl_cons, List.foldl_cons]
    have hx : pystrip x = x := h x (List.mem_cons_self x l)
    rw [show (let val := pystrip x
        if acc.contains val then acc else acc ++ [val]) =
        (if acc.contains x then acc else acc ++ [x]) from by rw [hx]]
    exact ih (fun y hy => h y (List.mem_cons_of_mem _ hy)) _

/-- C7: the extractor returns exactly the matches of the four patterns
applied sequentially in their fixed order (all matches of pattern 1, in
left-to-right position order, before any match of pattern 2, and so on — not
interleaved by position), with exact-string duplicates dropped so the first
occurrence wins, and with no normalization of the matched substrings
(stripping is provably the identity on every match). -/
theorem claim_C7 (html : String) :
    extract_phone_candidates_from_html html =
      dedupFirst (allPhoneMatches html) ∧
    ∀ x ∈ allPhoneMatches html, pystrip x = x := by
  have hstrip : ∀ x ∈ allPhoneMatches html, pystrip x = x := by
    intro x hx
    unfold allPhoneMatches at hx
    rcases List.mem_flatten.mp hx with ⟨lst, hlst, hxl⟩
    rcases List.mem_map.mp hlst with ⟨matcher, hmatcher, hfm⟩
    rw [← hfm] at hxl
    rcases findall_mem matcher html x hxl with ⟨m, prev, cs, r, hxm, hmr⟩
    rw [hxm]
    exact pystrip_good m
      (phone_patterns_good matcher hmatcher prev cs m r hmr)
  have hsub : ∀ matcher ∈ phone_patterns, ∀ x ∈ findall matcher html,
      pystrip x = x := by
    intro matcher hm x hx
    apply hstrip
    unfold allPhoneMatches
    exact List.mem_flatten.mpr
      ⟨findall matcher html, List.mem_map_of_mem _ hm, hx⟩
  refine ⟨?_, hstrip⟩
  unfold extract_phone_candidates_from_html dedupFirst allPhoneMatches
  simp only [phone_patterns, List.map_cons, List.map_nil, List.flatten_cons,
    List.flatten_nil, List.append_nil, List.foldl_cons, List.foldl_nil]
  rw [List.foldl_append, List.foldl_append, List.foldl_append]
  rw [inner_fold_eq (findall pat1 html)
      (hsub pat1 (by simp [phone_patterns])),
    inner_fold_eq (findall pat2 html)
      (hsub pat2 (by simp [phone_patterns])),
    inner_fold_eq (findall pat3 html)
      (hsub pat3 (by simp [phone_patterns])),
    inner_fold_eq (findall pat4 html)
      (hsub pat4 (by simp [phone_patterns]))]

/-- Witness for C7 on a concrete page snippet. -/
theorem claim_C7_witness :
    extract_phone_candidates_from_html "Call 017-787 0260 now" =
      dedupFirst (allPhoneMatches "Call 017-787 0260 now") ∧
    pystrip "017-787 0260" = "017-787 0260" :=
  ⟨(claim_C7 "Call 017-787 0260 now").1,
    (claim_C7 "Call 017-787 0260 now").2 "017-787 0260" (by decide)⟩

end BasicPlayground
